import Mathlib

/-!
Shallow embedding of the PVOptimize controller core (PVControl/pvcontrol.py),
together with proofs about its persisted-state handling, SOC estimator,
EV charge-current allocator, battery-charge manager and clear-sky window
calculation.  Machine reals are modelled as exact rationals, Python
dictionaries as association lists, and raised exceptions as Option none.
-/

namespace PVOptimize

/-- A UTC timestamp: the calendar day as days since 1970-01-01 plus the
seconds elapsed since midnight.  Day 365 is 1971-01-01 (1970 has 365 days),
so `datetime.year > 1970` holds iff `365 ≤ day`. -/
structure TS where
  day : Int
  sod : Rat
deriving DecidableEq

/-- Seconds since the epoch 1970-01-01 00:00 UTC. -/
def TS.toSec (t : TS) : Rat := t.day * 86400 + t.sod

/-- `(now - saved).total_seconds()/60`: elapsed minutes between timestamps. -/
def deltaMin (now saved : TS) : Rat := (now.toSec - saved.toSec) / 60

/-- The test `saved.year > 1970` from `PVControl.runControl`. -/
def yearGT1970 (t : TS) : Bool := decide (365 ≤ t.day)

/-- The epoch timestamp `datetime(1970, 1, 1, 0, 0, tzinfo=pytz.utc)`. -/
def epochTS : TS := ⟨0, 0⟩

/-- The persisted state dictionary `self.persist` of `PVControl`.
`endcharge` maps an integer current level to a cutoff time-of-day in seconds;
a `none` value models Python `None` (as stored by `_initPersist`). -/
structure Persist where
  saved : TS
  ctrl_power : Rat
  overflow_start : Rat
  overflow_end : Rat
  endcharge : List (Int × Option Rat)
  charge_completed : Bool
  calcSOC : Rat
deriving DecidableEq

/-- `PVControl._initPersist`: the default persisted state.  Note that the
default `endcharge` dictionary is `{ 1 : None }`, not the empty dictionary,
and the default times are `time(0, 0)`. -/
def initPersist : Persist :=
  { saved := epochTS
    ctrl_power := 0
    overflow_start := 0
    overflow_end := 0
    endcharge := [(1, none)]
    charge_completed := false
    calcSOC := 0 }

/-- Lines 191-193 of `PVControl.runControl`: if the persisted state was saved
after 1970 and is older than 10 minutes, it is re-initialised. -/
def staleReset (p : Persist) (now : TS) : Persist :=
  if yearGT1970 p.saved ∧ deltaMin now p.saved > 10 then initPersist else p

/-- Lines 191-199 of `PVControl.runControl`: the stale-state check followed by
the `calcSOC` update.  `delta_t` is only bound in the source when
`saved.year > 1970`; the branch that would read it unbound (a Python
`NameError`) is modelled as `none`. -/
def socStep (p : Persist) (now : TS) (soc bat_power maxSOC batCapacity : Rat) :
    Option Persist :=
  let p1 := staleReset p now
  if p1.calcSOC = 0 then some { p1 with calcSOC := soc }
  else if soc = maxSOC then some { p1 with calcSOC := maxSOC }
  else if yearGT1970 p.saved then
    some { p1 with calcSOC :=
      p1.calcSOC + (-bat_power * deltaMin now p.saved / 60) / batCapacity }
  else none

/-- Lines 58-60 of `PVControl.__init__`: the configured `minSOC` is raised to
the battery's own minimum SOC when it is below it. -/
def effectiveMinSOC (ctrlMinSOC batMinSOC : Rat) : Rat :=
  if ctrlMinSOC < batMinSOC then batMinSOC else ctrlMinSOC

/-- The inputs visible to `PVControl._getI_charge` on one tick: configuration,
the current PV status snapshot, the wallbox connection state, the previous
tick's delivered and requested control power, the persisted `endcharge` map
and the current time-of-day in seconds. -/
structure AllocIn where
  phases : Rat
  I_min : Rat
  I_max : Rat
  I_gridMax : Rat
  allow_Bat2EV : Bool
  minSOCCharge : Rat
  maxBatDischarge : Rat
  coeff_A : Rat × Rat
  coeff_B : Rat × Rat
  InverterEff : Rat
  dc_power : Rat
  home_consumption : Rat
  grid_voltage : Rat
  soc : Rat
  connected : Bool
  chargeNow : Bool
  ctrl_power : Rat
  req_ctrl_power_prev : Rat
  endcharge : List (Int × Option Rat)
  timeOfDay : Rat
  inhibit0 : Bool

/-- `PVControl._P_to_I`: convert AC power to per-phase current. -/
def P_to_I (a : AllocIn) (P : Rat) : Rat := P / (a.grid_voltage * a.phases)

/-- Python `abs` on a rational. -/
def pabs (x : Rat) : Rat := if x < 0 then -x else x

/-- Line 308-309: available PV excess power, clamped to be nonnegative. -/
def availP (a : AllocIn) : Rat :=
  let v := a.dc_power * a.InverterEff - a.home_consumption + a.ctrl_power
  if v < 0 then 0 else v

/-- Line 310: the available PV excess expressed as a current. -/
def I_maxPV (a : AllocIn) : Rat := P_to_I a (availP a)

/-- Lines 302-305: previous delivered current, snapped to `I_min` when within
0.1 A of it. -/
def I_prevA (a : AllocIn) : Rat :=
  let ip := P_to_I a a.ctrl_power
  if pabs (a.I_min - ip) < 1/10 then a.I_min else ip

/-- Lines 303-307: previous requested current, snapped to the previous
delivered current when within 0.1 A of it. -/
def I_prevReqA (a : AllocIn) : Rat :=
  let ir := P_to_I a a.req_ctrl_power_prev
  if pabs (ir - I_prevA a) < 1/10 then I_prevA a else ir

/-- `PVControl._maxFromBat`: linear battery-current allowance model for a
coefficient pair, clamped to `[0, I_batMax]`, zero at or below
`minSOCCharge`. -/
def maxFromBat (a : AllocIn) (coeff : Rat × Rat) : Rat :=
  let I_batMax := P_to_I a a.maxBatDischarge
  let ca := I_batMax / (coeff.2 - coeff.1)
  let cb := -ca * coeff.1
  if a.soc > a.minSOCCharge then
    let I_bat := a.soc * ca + cb
    let I_bat := if I_bat < 0 then 0 else I_bat
    if I_bat > I_batMax then I_batMax else I_bat
  else 0

/-- Lines 311-315: the two sequential assignments determining `I_missing`. -/
def I_missingInit (a : AllocIn) : Rat :=
  let m : Rat := 0
  let m := if a.ctrl_power > 0 ∧ I_maxPV a < a.I_min
           then (I_prevA a + a.I_min) / 2 - I_maxPV a else m
  if a.ctrl_power = 0 ∧ (I_maxPV a + a.I_gridMax ≥ a.I_min ∨ a.allow_Bat2EV)
  then a.I_min - I_maxPV a else m

/-- Python dictionary lookup `d[k]` preceded by `k in d`, on an association
list: `none` when the key is absent. -/
def alookup {β : Type} (k : Int) : List (Int × β) → Option β
  | [] => none
  | e :: rest => if e.1 = k then some e.2 else alookup k rest

/-- Lines 316-341 of `_getI_charge`: the `I_missing > 0` branch (battery/grid
harvesting) and the `I_missing == 0` fallback, producing the charge current
before rounding, `I_bat` and `inhibitDischarge`.  The result is `none` for
the `TypeError` the source raises when the `endcharge` entry looked up holds
Python `None`. -/
def allocCore (a : AllocIn) : Option (Rat × Rat × Bool) :=
  let I_missing := I_missingInit a
  if I_missing > 0 then
    if a.allow_Bat2EV ∧ a.soc > a.minSOCCharge then
      let I_bat := P_to_I a a.maxBatDischarge
      some (a.I_gridMax + I_bat + I_maxPV a, I_bat, a.inhibit0)
    else
      let I_bat := maxFromBat a a.coeff_A
      let st : Rat × Rat × Bool :=
        if I_missing > I_bat then
          let I_missing := a.I_min - I_maxPV a
          let I_bat := maxFromBat a a.coeff_B
          if I_missing > I_bat + a.I_gridMax then (0, I_bat, a.inhibit0)
          else if I_missing ≤ a.I_gridMax then (I_missing, I_bat, true)
          else (I_missing, I_bat, a.inhibit0)
        else if I_missing ≤ a.I_gridMax then (I_missing, I_bat, true)
        else (I_missing, I_bat, a.inhibit0)
      let I_missing := st.1
      let I_bat := st.2.1
      let inhibit := st.2.2
      let I_missing := if inhibit ∧ a.I_gridMax - I_maxPV a > I_missing
                       then a.I_gridMax else I_missing
      let cut : Option Rat :=
        match alookup ⌊a.I_min - a.I_gridMax⌋ a.endcharge with
        | none => some I_missing
        | some none => none
        | some (some t) => some (if a.timeOfDay > t then 0 else I_missing)
      cut.map (fun I_missing =>
        let I_charge := I_maxPV a + I_missing
        let I_charge := if I_prevA a > 0 ∧ I_charge > I_prevA a ∧ inhibit = false
                        then I_prevA a else I_charge
        (I_charge, I_bat, inhibit))
  else some (I_maxPV a, 0, a.inhibit0)

/-- `WBTemplate.round_current`: by default the wallbox rounds the requested
current down to whole amps (`math.floor`). -/
def round_current (I : Rat) : Rat := ⌊I⌋

/-- Lines 342-347: rounding to the wallbox granularity and the final clamps
against `I_min` and `I_max`. -/
def clampFinal (a : AllocIn) (I : Rat) : Rat :=
  let I_charge := round_current I
  let I_charge := if I_charge < a.I_min
                  then (if I_prevA a < I_prevReqA a then a.I_min else 0)
                  else I_charge
  if I_charge > a.I_max then a.I_max else I_charge

/-- The outputs of `PVControl._getI_charge`. -/
structure AllocOut where
  I_charge : Rat
  I_bat : Rat
  inhibitDischarge : Bool
  avail_P : Rat

/-- `PVControl._getI_charge`: the full allocator.  When the vehicle is not
connected or `chargeNow` is false, the current is 0 and `avail_P` is the
sentinel -1; otherwise the core allocation runs, followed by rounding and
clamping. -/
def getI_charge (a : AllocIn) : Option AllocOut :=
  if a.chargeNow ∧ a.connected then
    (allocCore a).map (fun r =>
      { I_charge := clampFinal a r.1
        I_bat := r.2.1
        inhibitDischarge := r.2.2
        avail_P := availP a })
  else
    some { I_charge := 0, I_bat := 0, inhibitDischarge := a.inhibit0,
           avail_P := -1 }

/-- One row of the forecast DataFrame produced by `PVForecast.getForecast`:
the integer index label (descending while `period_end` ascends, so
`label + 1` addresses the previous-in-time row), the period-end timestamp in
absolute seconds, and the remaining PV energy for the rest of the day. -/
structure FRow where
  idx : Int
  period_end : Rat
  remain : Rat

/-- Lines 373-389 of `PVControl._manageBatCharge`: the `try` block computing
`have` by linear interpolation between the forecast rows bracketing the
current time, minus projected home consumption until end of production.
Any raised exception (no bracketing rows, duplicate period end, no
end-of-production row) is modelled as `none`. -/
def tryHave (f : List FRow) (tnow home_consumption ctrl_power : Rat) :
    Option Rat := do
  let nxt ← f.find? (fun r => decide (r.period_end ≥ tnow))
  let prev ← f.find? (fun r => decide (r.idx = nxt.idx + 1))
  let dt := nxt.period_end - prev.period_end
  if dt = 0 then
    none
  else
    let dP := nxt.remain - prev.remain
    let haveNow := prev.remain + dP * (tnow - prev.period_end) / dt
    let endpv ← f.find? (fun r => decide (r.remain < 100))
    let dt_pv := (endpv.period_end - tnow) / 3600
    let dt_pv := if dt_pv < 0 then 0 else dt_pv
    let home := home_consumption - ctrl_power
    let h := haveNow - home * dt_pv
    some (if h < 0 then 0 else h)

/-- The inputs visible to `PVControl._manageBatCharge` on one tick, including
the allocator's `I_charge`, `I_bat` and `inhibitDischarge` outputs. -/
structure MBCIn where
  forecast : Option (List FRow)
  currTime : TS
  dc_power : Rat
  home_consumption : Rat
  grid_voltage : Rat
  phases : Rat
  soc : Rat
  ctrl_power : Rat
  maxSOC : Rat
  maxSOCCharge : Rat
  minSOC : Rat
  minSOCCharge : Rat
  batCapacity : Rat
  feedInLimit : Rat
  coeff_C : Rat × Rat
  allow_Bat2EV : Bool
  connected : Bool
  charge_completed : Bool
  I_charge : Rat
  I_bat : Rat
  inhibitDischarge : Bool
  I_min : Rat
  maxBatCharge : Rat
  overflow_start : Rat
  overflow_end : Rat

/-- The state left behind by `PVControl._manageBatCharge`: the returned
`fastcharge` flag, the telemetry values, and the possibly adjusted
`I_charge`, `I_bat`, `inhibitDischarge`, `minSOCCharge` and `maxSOC`.
`haveV` is the source's local variable `have`. -/
structure MBCOut where
  fastcharge : Bool
  need : Rat
  haveV : Rat
  I_charge : Rat
  I_bat : Rat
  inhibitDischarge : Bool
  minSOCCharge : Rat
  maxSOC : Rat
  bat_forecast : Rat

/-- `PVControl._P_to_I` as used inside `_manageBatCharge`. -/
def mbcPtoI (m : MBCIn) (P : Rat) : Rat := P / (m.grid_voltage * m.phases)

/-- Line 394: the condition under which the fastcharge decision chain is
skipped: battery power is being routed to the connected vehicle. -/
def mbcBypass (m : MBCIn) : Prop :=
  m.allow_Bat2EV ∧ m.connected ∧ m.I_charge > 0 ∧ ¬m.charge_completed

instance (m : MBCIn) : Decidable (mbcBypass m) := by
  unfold mbcBypass
  infer_instance

/-- Lines 396-413: the ordered fastcharge decision chain, producing
`(fastcharge, I_charge, maxSOC)`.  `inhibit` and `minSC` are the values of
`inhibitDischarge` and `minSOCCharge` after the line 390-392 update. -/
def mbcChain (m : MBCIn) (need haveV : Rat) (inhibit : Bool) (minSC : Rat) :
    Bool × Rat × Rat :=
  if m.dc_power > m.feedInLimit / 50 then
    if need > haveV / m.coeff_C.1 ∧ inhibit = false then
      let ic := m.I_charge - mbcPtoI m m.maxBatCharge
      (true, if ic < m.I_min then 0 else ic, m.maxSOC)
    else if minSC > m.soc then (true, 0, m.maxSOC)
    else if m.connected ∧ ¬m.charge_completed then
      (if m.soc < m.maxSOCCharge ∨ m.currTime.sod > m.overflow_end then true
       else false,
       m.I_charge,
       if need < haveV / m.coeff_C.2 ∧ m.currTime.sod < m.overflow_start
       then m.maxSOCCharge else m.maxSOC)
    else if need > haveV / m.coeff_C.2 ∧ m.currTime.sod < m.overflow_end then
      (true, m.I_charge, m.maxSOC)
    else if m.currTime.sod > m.overflow_end then (true, m.I_charge, m.maxSOC)
    else (false, m.I_charge, m.maxSOC)
  else (true, m.I_charge, m.maxSOC)

/-- `PVControl._manageBatCharge`: with no forecast the defaults
`need = have = 0`, `fastcharge = true` stand; with a forecast, `need` and
`have` are computed (both dropped to 0 when the `try` block raises), the
charge-completed update runs, then unless `mbcBypass` holds the decision
chain runs and a final `I_charge == 0` zeroes `I_bat`. -/
def manageBatCharge (m : MBCIn) : MBCOut :=
  match m.forecast with
  | none =>
    { fastcharge := true, need := 0, haveV := 0, I_charge := m.I_charge,
      I_bat := m.I_bat, inhibitDischarge := m.inhibitDischarge,
      minSOCCharge := m.minSOCCharge, maxSOC := m.maxSOC, bat_forecast := 1 }
  | some f =>
    let need0 := (m.maxSOC - m.soc) * m.batCapacity
    let need0 := if need0 < 0 then 0 else need0
    let nh : Rat × Rat :=
      match tryHave f m.currTime.toSec m.home_consumption m.ctrl_power with
      | some h => (need0, h)
      | none => (0, 0)
    let need := nh.1
    let haveV := nh.2
    let inhibit := if m.connected ∧ m.charge_completed then false
                   else m.inhibitDischarge
    let minSC := if m.connected ∧ m.charge_completed then m.minSOC
                 else m.minSOCCharge
    if ¬ mbcBypass m then
      let st := mbcChain m need haveV inhibit minSC
      { fastcharge := st.1, need := need, haveV := haveV,
        I_charge := st.2.1,
        I_bat := if st.2.1 = 0 then 0 else m.I_bat,
        inhibitDischarge := inhibit, minSOCCharge := minSC, maxSOC := st.2.2,
        bat_forecast := if need > 0 then haveV / need else 1 }
    else
      { fastcharge := false, need := need, haveV := haveV,
        I_charge := m.I_charge, I_bat := m.I_bat,
        inhibitDischarge := inhibit, minSOCCharge := minSC, maxSOC := m.maxSOC,
        bat_forecast := if need > 0 then haveV / need else 1 }

/-- One sample row of the clear-sky model output used by
`PVControl._getClearsky`: the sample's time-of-day in seconds (the rows span
a single day in ascending 5-minute steps) and the modelled AC clear-sky
power `ac_clearsky`. -/
structure CSample where
  t : Rat
  ac : Rat

/-- `PVControl._I_to_P`: convert per-phase current to AC power. -/
def I_to_P (I voltage phases : Rat) : Rat := I * voltage * phases

/-- `clearsky.loc[clearsky['ac_clearsky'] > P]` followed by
`power.iloc[-1].name.time()`: the time of the last sample whose clear-sky
power exceeds `P`, or `none` when the filter is empty. -/
def endchargeCutoff (P : Rat) (curve : List CSample) : Option Rat :=
  ((curve.filter (fun s => decide (P < s.ac))).getLast?).map CSample.t

/-- Lines 267-273 of `_getClearsky`: for each integer current level `I` in
`range(1, math.ceil(I_max))`, the cutoff time at level `I`; levels whose
filter is empty are omitted. -/
def endchargeMap (I_max voltage phases : Rat) (curve : List CSample) :
    List (Int × Rat) :=
  (List.range' 1 (⌈I_max⌉ - 1).toNat).filterMap (fun (n : Nat) =>
    (endchargeCutoff (I_to_P (n : Rat) voltage phases) curve).map
      (fun t => ((n : Int), t)))

/-- `(timestamp - timedelta(minutes=30)).time()` for a timestamp whose
time-of-day is `s`: subtracting 30 minutes can wrap past midnight. -/
def subMin30 (s : Rat) : Rat := if s < 1800 then s + 86400 - 1800 else s - 1800

/-- `(timestamp + timedelta(minutes=30)).time()` for a timestamp whose
time-of-day is `s`: adding 30 minutes can wrap past midnight. -/
def addMin30 (s : Rat) : Rat :=
  if s + 1800 ≥ 86400 then s + 1800 - 86400 else s + 1800

/-- `PVControl._getClearsky`: only when the tick's calendar date is beyond the
date of the persisted `saved` timestamp, recompute the `endcharge` cutoff map
and the overflow window from the clear-sky curve; otherwise leave the
persisted state untouched.  The overflow filter retries at 90 % of
`feedInLimit`, and an empty result yields the sentinel window
`23:59 .. 00:00`. -/
def getClearsky (p : Persist) (now : TS) (curve : List CSample)
    (I_max feedInLimit voltage phases : Rat) : Persist :=
  if p.saved.day < now.day then
    let endch := endchargeMap I_max voltage phases curve
    let over := curve.filter (fun s => decide (s.ac > feedInLimit))
    let over := if over.isEmpty
                then curve.filter (fun s => decide (s.ac > (9/10) * feedInLimit))
                else over
    match over.head?, over.getLast? with
    | some h0, some l0 =>
      { p with endcharge := endch.map (fun e => (e.1, some e.2))
               overflow_start := subMin30 h0.t
               overflow_end := addMin30 l0.t }
    | _, _ =>
      { p with endcharge := endch.map (fun e => (e.1, some e.2))
               overflow_start := 86340
               overflow_end := 0 }
  else p

/-- The clear-sky-relevant slice of one `runControl` tick: the stale-state
check (lines 191-193), `_getClearsky` (line 202), and the final
`persist['saved'] = currTime` (line 213). -/
def clearskyTick (p : Persist) (now : TS) (curve : List CSample)
    (I_max feedInLimit voltage phases : Rat) : Persist :=
  { getClearsky (staleReset p now) now curve I_max feedInLimit voltage phases
    with saved := now }

/-- Helper recursion computing the same value as `endchargeCutoff`: the time
of the last sample exceeding `P`. -/
def lastExceed (P : Rat) : List CSample → Option Rat
  | [] => none
  | s :: rest =>
    match lastExceed P rest with
    | some t => some t
    | none => if P < s.ac then some s.t else none

/-! ### Concrete example inputs used by witnesses and counterexamples -/

/-- A persisted state one tick after the estimator was seeded from a first
measured SOC of 0: `calcSOC` is 0 and `saved` is a contemporary timestamp. -/
def exPersist6 : Persist :=
  { saved := ⟨20000, 0⟩
    ctrl_power := 0
    overflow_start := 0
    overflow_end := 0
    endcharge := [(1, none)]
    charge_completed := false
    calcSOC := 0 }

/-- The worked scenario of the specification: 5000 W DC power, 500 W home
consumption, inverter efficiency 0.97, no previous control power, `I_min` 6 A,
`I_max` 16 A, three phases at 230 V. -/
def exAlloc1 : AllocIn :=
  { phases := 3
    I_min := 6
    I_max := 16
    I_gridMax := 0
    allow_Bat2EV := false
    minSOCCharge := 1/20
    maxBatDischarge := 690
    coeff_A := (1/2, 1)
    coeff_B := (1/5, 7/10)
    InverterEff := 97/100
    dc_power := 5000
    home_consumption := 500
    grid_voltage := 230
    soc := 1/2
    connected := true
    chargeNow := true
    ctrl_power := 0
    req_ctrl_power_prev := 0
    endcharge := []
    timeOfDay := 36000
    inhibit0 := false }

/-- A tick with `allow_Bat2EV` enabled, the battery above `minSOCCharge`, and
no PV power at all, so that `I_missing > 0` on a cold start. -/
def exAlloc5 : AllocIn :=
  { exAlloc1 with
    allow_Bat2EV := true
    dc_power := 0
    home_consumption := 0 }

/-- A tick mid-charge with no PV power left: the previous requested current
was fully consumed, the coefficient models cannot sustain `I_min`, and the
allocator ends at `I_charge = 0` while `I_bat` keeps the conservative-model
value 4/5 A. -/
def exAlloc9 : AllocIn :=
  { exAlloc1 with
    soc := 3/5
    dc_power := 0
    home_consumption := 4140
    ctrl_power := 4140
    req_ctrl_power_prev := 4140 }

/-- A tick whose forecast DataFrame is present but empty (malformed): the
`try` block raises at the very first lookup.  There is meaningful DC power,
the battery is healthy, the vehicle is disconnected and the overflow window
has not ended. -/
def exMBC2 : MBCIn :=
  { forecast := some []
    currTime := ⟨20000, 36000⟩
    dc_power := 1000
    home_consumption := 300
    grid_voltage := 230
    phases := 3
    soc := 1/2
    ctrl_power := 0
    maxSOC := 1
    maxSOCCharge := 19/20
    minSOC := 1/20
    minSOCCharge := 1/20
    batCapacity := 10000
    feedInLimit := 10000
    coeff_C := (6/5, 2)
    allow_Bat2EV := false
    connected := false
    charge_completed := false
    I_charge := 0
    I_bat := 0
    inhibitDischarge := false
    I_min := 6
    maxBatCharge := 5000
    overflow_start := 0
    overflow_end := 86340 }

/-- The manager tick following `exAlloc9`, with no forecast available: the
allocator delivered `I_charge = 0` but `I_bat = 4/5`. -/
def exMBC9none : MBCIn :=
  { exMBC2 with
    forecast := none
    connected := true
    home_consumption := 4140
    I_bat := 4/5 }

/-- The manager tick following `exAlloc9` with a (malformed) forecast
present. -/
def exMBC9some : MBCIn :=
  { exMBC9none with forecast := some [] }

/-- A two-sample clear-sky curve in ascending time order: a strong morning
sample and a weak afternoon sample. -/
def exCurve : List CSample := [⟨100, 5000⟩, ⟨200, 1000⟩]

end PVOptimize

namespace PVOptimize

/-! ### Theorems -/

/-- Claim C10: after configuration the controller's `minSOC` is the maximum of
the configured PVControl `minSOC` and the battery's PVStorage `minSOC`, hence
never below the battery's supported minimum. -/
theorem effectiveMinSOC_eq_max (a b : Rat) :
    effectiveMinSOC a b = max a b ∧ b ≤ effectiveMinSOC a b := by
  unfold effectiveMinSOC
  split_ifs with h
  · exact ⟨(max_eq_right h.le).symm, le_refl b⟩
  · exact ⟨(max_eq_left (not_lt.mp h)).symm, not_lt.mp h⟩

/-- Claim C3 (counterexample): with the persisted state saved 15 minutes before
the current tick, the state is indeed re-initialised, but the resulting
`endcharge` map is not empty: it holds the placeholder entry `1 ↦ None`. -/
theorem staleReset_endcharge_not_empty :
    deltaMin ⟨20000, 900⟩ ⟨20000, 0⟩ > 10 ∧
    (staleReset
      { saved := ⟨20000, 0⟩, ctrl_power := 500, overflow_start := 0,
        overflow_end := 0, endcharge := [(6, some 50000)],
        charge_completed := false, calcSOC := 1/2 }
      ⟨20000, 900⟩).endcharge ≠ [] := by
  constructor
  · norm_num [deltaMin, TS.toSec]
  · norm_num [staleReset, yearGT1970, deltaMin, TS.toSec, initPersist]

/-- Claim C3 (amended): if the persisted `saved` timestamp is after 1970 and
more than 10 minutes in the past, the state is reset to the defaults of
`_initPersist` before use: `saved` = epoch, `ctrl_power = 0`, the `endcharge`
map holding only the placeholder entry `1 ↦ None`, and `calcSOC = 0`. -/
theorem staleReset_resets (p : Persist) (now : TS)
    (hy : yearGT1970 p.saved = true) (hd : deltaMin now p.saved > 10) :
    staleReset p now = initPersist ∧
    initPersist.saved = epochTS ∧ initPersist.ctrl_power = 0 ∧
    initPersist.endcharge = [(1, none)] ∧ initPersist.calcSOC = 0 := by
  refine ⟨?_, rfl, rfl, rfl, rfl⟩
  unfold staleReset
  simp [hy, hd]

/-- Witness for `staleReset_resets` at a concrete stale state. -/
theorem staleReset_resets_witness :
    staleReset
      { saved := ⟨20000, 0⟩, ctrl_power := 500, overflow_start := 0,
        overflow_end := 0, endcharge := [(6, some 50000)],
        charge_completed := false, calcSOC := 1/2 }
      ⟨20000, 900⟩ = initPersist ∧
    initPersist.saved = epochTS ∧ initPersist.ctrl_power = 0 ∧
    initPersist.endcharge = [(1, none)] ∧ initPersist.calcSOC = 0 :=
  staleReset_resets _ _ (by norm_num [yearGT1970])
    (by norm_num [deltaMin, TS.toSec])

end PVOptimize

namespace PVOptimize

/-- Claim C6 (counterexample): seeding `calcSOC` from a first measured SOC of
0 leaves `calcSOC = 0`, which the next tick cannot distinguish from the
unseeded state.  With measured SOC 1/2, `bat_power = -60` W, one elapsed
minute and capacity 1000 Wh, the code re-seeds `calcSOC` to 1/2 instead of
integrating to 0 + (60*1/60)/1000 = 1/1000 as the claim's formula demands. -/
theorem socStep_reseed_counterexample :
    socStep exPersist6 ⟨20000, 60⟩ (1/2) (-60) 1 1000 =
      some { exPersist6 with calcSOC := 1/2 } ∧
    exPersist6.calcSOC +
      (-(-60 : Rat) * deltaMin ⟨20000, 60⟩ exPersist6.saved / 60) / 1000 ≠ 1/2 := by
  constructor
  · norm_num [socStep, staleReset, yearGT1970, deltaMin, TS.toSec, exPersist6]
  · norm_num [deltaMin, TS.toSec, exPersist6]

/-- Claim C6 (amended): on a tick at most 10 minutes after the previous one,
with a non-epoch `saved` timestamp and a nonzero current `calcSOC`, the
estimator resynchronises `calcSOC = maxSOC` when the measured SOC equals
`maxSOC` exactly, and otherwise integrates
`calcSOC += (-bat_power * delta_t / 60) / batCapacity`. -/
theorem socStep_update (p : Persist) (now : TS) (soc bat_power maxSOC cap : Rat)
    (hy : yearGT1970 p.saved = true) (hd : deltaMin now p.saved ≤ 10)
    (hc : p.calcSOC ≠ 0) :
    socStep p now soc bat_power maxSOC cap =
      some { p with calcSOC :=
        if soc = maxSOC then maxSOC
        else p.calcSOC + (-bat_power * deltaMin now p.saved / 60) / cap } := by
  have hsr : staleReset p now = p := by
    unfold staleReset
    rw [if_neg]
    rintro ⟨-, h2⟩
    linarith
  simp only [socStep, hsr]
  rw [if_neg hc]
  by_cases h : soc = maxSOC
  · simp [h]
  · simp [h, hy]

/-- Witness for `socStep_update` at a concrete seeded state. -/
theorem socStep_update_witness :
    socStep { exPersist6 with calcSOC := 1/4 } ⟨20000, 60⟩ (1/2) (-60) 1 1000 =
      some { { exPersist6 with calcSOC := 1/4 } with calcSOC :=
        if (1/2 : Rat) = 1 then 1
        else (1/4 : Rat) +
          (-(-60 : Rat) * deltaMin ⟨20000, 60⟩ exPersist6.saved / 60) / 1000 } :=
  socStep_update _ _ _ _ _ _ (by norm_num [yearGT1970, exPersist6])
    (by norm_num [deltaMin, TS.toSec, exPersist6]) (by norm_num [exPersist6])

end PVOptimize

namespace PVOptimize

/-- Claim C1: whenever the allocator runs (vehicle connected and `chargeNow`
true) with a valid configuration `0 ≤ I_min ≤ I_max` and returns a current,
that current satisfies `0 ≤ I_charge ≤ I_max`, and it is either exactly 0 or
at least `I_min`. -/
theorem getI_charge_bounds (a : AllocIn) (hc : a.connected = true)
    (hn : a.chargeNow = true) (h0 : 0 ≤ a.I_min) (h1 : a.I_min ≤ a.I_max)
    (out : AllocOut) (hout : getI_charge a = some out) :
    0 ≤ out.I_charge ∧ out.I_charge ≤ a.I_max ∧
    (out.I_charge = 0 ∨ a.I_min ≤ out.I_charge) := by
  have key : ∀ I : Rat, 0 ≤ clampFinal a I ∧ clampFinal a I ≤ a.I_max ∧
      (clampFinal a I = 0 ∨ a.I_min ≤ clampFinal a I) := by
    intro I
    simp only [clampFinal, round_current]
    split_ifs <;>
      refine ⟨?_, ?_, ?_⟩ <;>
      first
        | linarith
        | (left; rfl)
        | (right; linarith)
  simp only [getI_charge, hc, hn, and_self, if_true] at hout
  rcases Option.map_eq_some'.mp hout with ⟨r, -, rfl⟩
  exact key r.1

/-- Witness for `getI_charge_bounds`: the specification's worked scenario
evaluates to `I_charge = 6` A with `avail_P = 4350` W. -/
theorem getI_charge_bounds_witness :
    getI_charge exAlloc1 = some ⟨6, 0, false, 4350⟩ ∧
    (0 ≤ (6 : Rat) ∧ (6 : Rat) ≤ 16 ∧ ((6 : Rat) = 0 ∨ (6 : Rat) ≤ 6)) := by
  have h : getI_charge exAlloc1 = some ⟨6, 0, false, 4350⟩ := by
    norm_num [getI_charge, allocCore, I_missingInit, I_maxPV, availP, P_to_I,
      I_prevA, I_prevReqA, pabs, clampFinal, round_current, exAlloc1]
  exact ⟨h, getI_charge_bounds exAlloc1 rfl rfl (by norm_num [exAlloc1])
    (by norm_num [exAlloc1]) ⟨6, 0, false, 4350⟩ h⟩

/-- Claim C4: when the vehicle is not connected or `chargeNow` is false, the
allocator returns `I_charge = 0` and the available-power sentinel
`avail_P = -1`. -/
theorem getI_charge_disconnected (a : AllocIn)
    (h : a.connected = false ∨ a.chargeNow = false) :
    getI_charge a =
      some { I_charge := 0, I_bat := 0, inhibitDischarge := a.inhibit0,
             avail_P := -1 } := by
  unfold getI_charge
  rcases h with h | h <;> simp [h]

/-- Witness for `getI_charge_disconnected` on a disconnected tick. -/
theorem getI_charge_disconnected_witness :
    getI_charge { exAlloc1 with connected := false } =
      some { I_charge := 0, I_bat := 0,
             inhibitDischarge := { exAlloc1 with connected := false }.inhibit0,
             avail_P := -1 } :=
  getI_charge_disconnected { exAlloc1 with connected := false } (Or.inl rfl)

/-- Claim C5: with `allow_Bat2EV` set, measured SOC strictly above
`minSOCCharge` and `I_missing > 0`, the allocator bypasses the coefficient
battery-current models and grants the pre-rounding current
`I_gridMax + maxBatDischargeCurrent + I_maxPV`, with `I_bat` the full battery
discharge-power limit converted to current. -/
theorem allocCore_bat2ev (a : AllocIn) (hb : a.allow_Bat2EV = true)
    (hs : a.soc > a.minSOCCharge) (hm : I_missingInit a > 0) :
    allocCore a = some (a.I_gridMax + P_to_I a a.maxBatDischarge + I_maxPV a,
                        P_to_I a a.maxBatDischarge, a.inhibit0) := by
  simp only [allocCore]
  rw [if_pos hm]
  simp [hb, hs]

/-- Witness for `allocCore_bat2ev` on a cold start with no PV power. -/
theorem allocCore_bat2ev_witness :
    allocCore exAlloc5 =
      some (exAlloc5.I_gridMax + P_to_I exAlloc5 exAlloc5.maxBatDischarge +
              I_maxPV exAlloc5,
            P_to_I exAlloc5 exAlloc5.maxBatDischarge, exAlloc5.inhibit0) :=
  allocCore_bat2ev exAlloc5 rfl (by norm_num [exAlloc5, exAlloc1])
    (by norm_num [I_missingInit, I_maxPV, availP, P_to_I, I_prevA, pabs,
      exAlloc5, exAlloc1])

end PVOptimize

namespace PVOptimize

/-- Claim C2 (counterexample): a present but malformed forecast (an empty
DataFrame) degrades `need` and `have` to 0, yet `fastcharge` comes out false:
with meaningful DC power, a healthy battery, no vehicle and the overflow
window still open, no branch of the decision chain fires. -/
theorem mbc_malformed_fastcharge_counterexample :
    (manageBatCharge exMBC2).need = 0 ∧ (manageBatCharge exMBC2).haveV = 0 ∧
    (manageBatCharge exMBC2).fastcharge = false := by
  norm_num [manageBatCharge, mbcBypass, mbcChain, mbcPtoI, tryHave, TS.toSec,
    exMBC2]

/-- Claim C2 (amended): if the forecast series is absent, the manager returns
`need = 0`, `have = 0` and `fastcharge = true`; if it is present but the
`have` computation fails on its samples, `need` and `have` degrade to 0 while
`fastcharge` is decided by the normal decision chain. -/
theorem mbc_degrade (m : MBCIn)
    (h : m.forecast = none ∨
      ∃ f, m.forecast = some f ∧
        tryHave f m.currTime.toSec m.home_consumption m.ctrl_power = none) :
    (manageBatCharge m).need = 0 ∧ (manageBatCharge m).haveV = 0 ∧
    (m.forecast = none → (manageBatCharge m).fastcharge = true) := by
  rcases h with h | ⟨f, hf, ht⟩
  · simp [manageBatCharge, h]
  · unfold manageBatCharge
    rw [hf]
    simp only [ht]
    constructor
    · split <;> simp
    · constructor
      · split <;> simp
      · intro h'
        exact absurd h' (by simp)

/-- Witness for `mbc_degrade` on a tick with no forecast at all. -/
theorem mbc_degrade_witness :
    (manageBatCharge { exMBC2 with forecast := none }).need = 0 ∧
    (manageBatCharge { exMBC2 with forecast := none }).haveV = 0 ∧
    (({ exMBC2 with forecast := none } : MBCIn).forecast = none →
      (manageBatCharge { exMBC2 with forecast := none }).fastcharge = true) :=
  mbc_degrade { exMBC2 with forecast := none } (Or.inl rfl)

/-- Claim C9 (counterexample): a tick mid-charge with no PV power left and no
forecast: the allocator returns `I_charge = 0` with `I_bat = 4/5` A, and with
the forecast absent the manager leaves `I_bat` nonzero although the final
`I_charge` is 0. -/
theorem mbc_Ibat_not_zeroed_counterexample :
    getI_charge exAlloc9 = some ⟨0, 4/5, false, 0⟩ ∧
    (manageBatCharge exMBC9none).I_charge = 0 ∧
    (manageBatCharge exMBC9none).I_bat = 4/5 ∧ (4/5 : Rat) ≠ 0 := by
  refine ⟨?_, ?_, ?_, by norm_num⟩
  · norm_num [getI_charge, allocCore, I_missingInit, I_maxPV, availP, P_to_I,
      I_prevA, I_prevReqA, pabs, maxFromBat, alookup, clampFinal,
      round_current, exAlloc9, exAlloc1]
  · norm_num [manageBatCharge, exMBC9none, exMBC2]
  · norm_num [manageBatCharge, exMBC9none, exMBC2]

/-- Claim C9 (amended): on every tick on which a forecast series is present,
if the final charge current output by the battery-charge manager is 0 then
the reported battery contribution `I_bat` is 0 as well. -/
theorem mbc_Ibat_zero (m : MBCIn) (f : List FRow) (hf : m.forecast = some f)
    (h0 : (manageBatCharge m).I_charge = 0) :
    (manageBatCharge m).I_bat = 0 := by
  unfold manageBatCharge at h0 ⊢
  rw [hf] at h0 ⊢
  by_cases hg : mbcBypass m
  · simp only [if_neg (not_not_intro hg)] at h0 ⊢
    exact absurd h0 (ne_of_gt hg.2.2.1)
  · simp only [if_pos hg] at h0 ⊢
    rw [if_pos h0]

/-- Witness for `mbc_Ibat_zero`: with a malformed forecast present and the
vehicle connected, the chain leaves `I_charge = 0` and `I_bat` is zeroed. -/
theorem mbc_Ibat_zero_witness : (manageBatCharge exMBC9some).I_bat = 0 :=
  mbc_Ibat_zero exMBC9some [] rfl
    (by norm_num [manageBatCharge, mbcBypass, mbcChain, mbcPtoI, tryHave,
      TS.toSec, exMBC9some, exMBC9none, exMBC2])

end PVOptimize

namespace PVOptimize

/-- Claim C7: the clear-sky window calculation runs at most once per calendar
day: on a second, consecutive tick of the same calendar day (at most 10
minutes later, with the identical clear-sky inputs), the tick does not
recompute and leaves `endcharge`, `overflow_start` and `overflow_end`
identical to the values the first tick produced. -/
theorem clearsky_once_per_day (p : Persist) (t1 t2 : TS)
    (curve : List CSample) (I_max fil voltage phases : Rat)
    (hday : t2.day = t1.day) (hgap : deltaMin t2 t1 ≤ 10) :
    (clearskyTick (clearskyTick p t1 curve I_max fil voltage phases) t2 curve
        I_max fil voltage phases).endcharge
      = (clearskyTick p t1 curve I_max fil voltage phases).endcharge ∧
    (clearskyTick (clearskyTick p t1 curve I_max fil voltage phases) t2 curve
        I_max fil voltage phases).overflow_start
      = (clearskyTick p t1 curve I_max fil voltage phases).overflow_start ∧
    (clearskyTick (clearskyTick p t1 curve I_max fil voltage phases) t2 curve
        I_max fil voltage phases).overflow_end
      = (clearskyTick p t1 curve I_max fil voltage phases).overflow_end := by
  set p1 := clearskyTick p t1 curve I_max fil voltage phases with hp1
  have hsaved : p1.saved = t1 := by rw [hp1]; rfl
  have hstale : staleReset p1 t2 = p1 := by
    unfold staleReset
    rw [if_neg]
    rintro ⟨-, hgt⟩
    rw [hsaved] at hgt
    linarith
  have hlt : ¬ (p1.saved.day < t2.day) := by
    rw [hsaved, hday]
    exact lt_irrefl _
  have hmain : clearskyTick p1 t2 curve I_max fil voltage phases =
      { p1 with saved := t2 } := by
    unfold clearskyTick
    rw [hstale]
    unfold getClearsky
    rw [if_neg hlt]
  rw [hmain]
  exact ⟨rfl, rfl, rfl⟩

/-- Witness for `clearsky_once_per_day` on two ticks one minute apart. -/
theorem clearsky_once_per_day_witness :
    (clearskyTick (clearskyTick initPersist ⟨20000, 600⟩ exCurve 3 8000 230 3)
        ⟨20000, 660⟩ exCurve 3 8000 230 3).endcharge
      = (clearskyTick initPersist ⟨20000, 600⟩ exCurve 3 8000 230 3).endcharge ∧
    (clearskyTick (clearskyTick initPersist ⟨20000, 600⟩ exCurve 3 8000 230 3)
        ⟨20000, 660⟩ exCurve 3 8000 230 3).overflow_start
      = (clearskyTick initPersist ⟨20000, 600⟩ exCurve 3 8000 230
          3).overflow_start ∧
    (clearskyTick (clearskyTick initPersist ⟨20000, 600⟩ exCurve 3 8000 230 3)
        ⟨20000, 660⟩ exCurve 3 8000 230 3).overflow_end
      = (clearskyTick initPersist ⟨20000, 600⟩ exCurve 3 8000 230
          3).overflow_end :=
  clearsky_once_per_day initPersist ⟨20000, 600⟩ ⟨20000, 660⟩ exCurve 3 8000
    230 3 rfl (by norm_num [deltaMin, TS.toSec])

end PVOptimize

namespace PVOptimize

/-- `getLast?` of a cons in terms of the tail's `getLast?`. -/
theorem getLast?_cons' {α : Type} (a : α) (l : List α) :
    (a :: l).getLast? = some (l.getLast?.getD a) := by
  induction l generalizing a with
  | nil => rfl
  | cons b l ih => simp [List.getLast?_cons_cons, ih]

/-- `endchargeCutoff` agrees with the helper recursion `lastExceed`. -/
theorem endchargeCutoff_eq (P : Rat) (l : List CSample) :
    endchargeCutoff P l = lastExceed P l := by
  induction l with
  | nil => rfl
  | cons s rest ih =>
    rw [lastExceed, ← ih]
    unfold endchargeCutoff
    rw [List.filter_cons]
    by_cases hs : P < s.ac
    · rw [if_pos (by simpa using hs), getLast?_cons']
      cases hfr : (rest.filter (fun s => decide (P < s.ac))).getLast? with
      | none => simp [hfr, hs]
      | some x => simp [hfr]
    · rw [if_neg (by simpa using hs)]
      cases hfr : (rest.filter (fun s => decide (P < s.ac))).getLast? with
      | none => simp [hfr, hs]
      | some x => simp [hfr]

/-- A successful `lastExceed` names the time of a curve sample whose power
exceeds the threshold. -/
theorem lastExceed_mem (P : Rat) : ∀ (l : List CSample) (t : Rat),
    lastExceed P l = some t → ∃ s, s ∈ l ∧ s.t = t ∧ P < s.ac := by
  intro l
  induction l with
  | nil => intro t h; simp [lastExceed] at h
  | cons s rest ih =>
    intro t h
    rw [lastExceed] at h
    cases hr : lastExceed P rest with
    | some u =>
      simp only [hr] at h
      obtain rfl : u = t := by simpa using h
      obtain ⟨x, hx, hxt, hxa⟩ := ih u hr
      exact ⟨x, List.mem_cons_of_mem s hx, hxt, hxa⟩
    | none =>
      simp only [hr] at h
      split_ifs at h with hP
      obtain rfl : s.t = t := by simpa using h
      exact ⟨s, List.mem_cons_self s rest, rfl, hP⟩

/-- `lastExceed` fails exactly when no curve sample exceeds the threshold. -/
theorem lastExceed_none_iff (P : Rat) : ∀ (l : List CSample),
    lastExceed P l = none ↔ ∀ s ∈ l, s.ac ≤ P := by
  intro l
  induction l with
  | nil => simp [lastExceed]
  | cons s rest ih =>
    rw [lastExceed]
    cases hr : lastExceed P rest with
    | some u =>
      obtain ⟨x, hx, -, hxa⟩ := lastExceed_mem P rest u hr
      simp only [hr]
      refine ⟨fun h => by simp at h, fun hall => ?_⟩
      exact ((not_le.mpr hxa) (hall x (List.mem_cons_of_mem s hx))).elim
    | none =>
      simp only [hr]
      split_ifs with hP
      · simp only [List.forall_mem_cons]
        refine ⟨fun h => by simp at h, fun hall => ?_⟩
        exact ((not_le.mpr hP) hall.1).elim
      · simp only [List.forall_mem_cons]
        exact iff_of_true (by trivial) ⟨not_lt.mp hP, ih.mp hr⟩

/-- On a time-sorted curve, a lower threshold has a cutoff at least as late
as any higher threshold. -/
theorem lastExceed_anti : ∀ (l : List CSample),
    l.Pairwise (fun a b => a.t ≤ b.t) → ∀ (P Q : Rat), P ≤ Q → ∀ tQ,
    lastExceed Q l = some tQ →
    ∃ tP, lastExceed P l = some tP ∧ tQ ≤ tP := by
  intro l
  induction l with
  | nil => intro _ P Q _ tQ h; simp [lastExceed] at h
  | cons s rest ih =>
    intro hsort P Q hPQ tQ hQ
    rw [List.pairwise_cons] at hsort
    obtain ⟨hhead, htail⟩ := hsort
    rw [lastExceed] at hQ
    cases hrQ : lastExceed Q rest with
    | some u =>
      simp only [hrQ] at hQ
      obtain rfl : u = tQ := by simpa using hQ
      obtain ⟨tP, hP, hle⟩ := ih htail P Q hPQ u hrQ
      refine ⟨tP, ?_, hle⟩
      rw [lastExceed, hP]
    | none =>
      simp only [hrQ] at hQ
      split_ifs at hQ with hQs
      · obtain rfl : s.t = tQ := by simpa using hQ
        have hPs : P < s.ac := lt_of_le_of_lt hPQ hQs
        cases hrP : lastExceed P rest with
        | none =>
          refine ⟨s.t, ?_, le_refl _⟩
          rw [lastExceed, hrP]
          simp [hPs]
        | some w =>
          obtain ⟨x, hx, hxt, -⟩ := lastExceed_mem P rest w hrP
          refine ⟨w, ?_, ?_⟩
          · rw [lastExceed, hrP]
          · rw [← hxt]
            exact hhead x hx

/-- A successful association-list lookup names a member entry. -/
theorem alookup_mem {β : Type} (k : Int) (l : List (Int × β)) (v : β)
    (h : alookup k l = some v) : (k, v) ∈ l := by
  induction l with
  | nil => simp [alookup] at h
  | cons e rest ih =>
    rw [alookup] at h
    split_ifs at h with he
    · have hv : e.2 = v := by simpa using h
      exact List.mem_cons.mpr (Or.inl (Prod.ext he hv).symm)
    · exact List.mem_cons.mpr (Or.inr (ih h))

/-- A member key is found by the association-list lookup. -/
theorem alookup_some_of_mem {β : Type} (k : Int) (l : List (Int × β)) (v : β)
    (h : (k, v) ∈ l) : ∃ w, alookup k l = some w := by
  induction l with
  | nil => simp at h
  | cons e rest ih =>
    rw [alookup]
    by_cases he : e.1 = k
    · rw [if_pos he]
      exact ⟨e.2, rfl⟩
    · rw [if_neg he]
      rcases List.mem_cons.mp h with h1 | h1
      · exact absurd (congrArg Prod.fst h1.symm) he
      · exact ih h1

/-- Membership in the computed `endcharge` map, characterised. -/
theorem mem_endchargeMap (I_max voltage phases : Rat) (curve : List CSample)
    (I : Int) (t : Rat) :
    (I, t) ∈ endchargeMap I_max voltage phases curve ↔
      ∃ n : Nat, n ∈ List.range' 1 (⌈I_max⌉ - 1).toNat ∧ (n : Int) = I ∧
        endchargeCutoff (I_to_P (n : Rat) voltage phases) curve = some t := by
  unfold endchargeMap
  rw [List.mem_filterMap]
  constructor
  · rintro ⟨n, hn, hf⟩
    rcases Option.map_eq_some'.mp hf with ⟨u, hu, he⟩
    have h1 : (n : Int) = I := congrArg Prod.fst he
    have h2 : u = t := congrArg Prod.snd he
    exact ⟨n, hn, h1, h2 ▸ hu⟩
  · rintro ⟨n, hn, h1, h2⟩
    refine ⟨n, hn, ?_⟩
    rw [h2]
    simp [h1]

/-- Claim C8: on a time-sorted clear-sky curve and with a positive
current-to-power conversion, the computed `endcharge` map is anti-monotone:
for levels `I < J` both present, the cutoff time at `J` is no later than the
cutoff at `I`; and a level in `1 .. ceil(I_max)-1` is omitted exactly when no
curve sample exceeds the power required for it. -/
theorem endcharge_antimono (curve : List CSample) (I_max voltage phases : Rat)
    (hv : 0 < voltage) (hp : 0 < phases)
    (hsort : curve.Pairwise (fun a b => a.t ≤ b.t)) :
    (∀ I J : Int, ∀ tI tJ : Rat,
        alookup I (endchargeMap I_max voltage phases curve) = some tI →
        alookup J (endchargeMap I_max voltage phases curve) = some tJ →
        I < J → tJ ≤ tI) ∧
    (∀ I : Int, 1 ≤ I → I < ⌈I_max⌉ →
        (alookup I (endchargeMap I_max voltage phases curve) = none ↔
          ∀ s ∈ curve, s.ac ≤ I_to_P (I : Rat) voltage phases)) := by
  constructor
  · intro I J tI tJ hI hJ hIJ
    obtain ⟨nI, -, hnI, hcI⟩ :=
      (mem_endchargeMap I_max voltage phases curve I tI).mp
        (alookup_mem I _ tI hI)
    obtain ⟨nJ, -, hnJ, hcJ⟩ :=
      (mem_endchargeMap I_max voltage phases curve J tJ).mp
        (alookup_mem J _ tJ hJ)
    rw [endchargeCutoff_eq] at hcI hcJ
    have hPle : I_to_P (nI : Rat) voltage phases ≤
        I_to_P (nJ : Rat) voltage phases := by
      unfold I_to_P
      have h1 : (nI : Rat) ≤ (nJ : Rat) := by
        have h0 : (nI : Int) < (nJ : Int) := by rw [hnI, hnJ]; exact hIJ
        exact_mod_cast le_of_lt h0
      have h2 : (0 : Rat) ≤ voltage * phases := le_of_lt (mul_pos hv hp)
      calc (nI : Rat) * voltage * phases
          = (nI : Rat) * (voltage * phases) := by ring
        _ ≤ (nJ : Rat) * (voltage * phases) :=
            mul_le_mul_of_nonneg_right h1 h2
        _ = (nJ : Rat) * voltage * phases := by ring
    obtain ⟨tP, hP, hle⟩ := lastExceed_anti curve hsort _ _ hPle tJ hcJ
    rw [hcI] at hP
    obtain rfl : tI = tP := by simpa using hP
    exact hle
  · intro I h1 h2
    have hnmem : I.toNat ∈ List.range' 1 (⌈I_max⌉ - 1).toNat := by
      rw [List.mem_range']
      exact ⟨I.toNat - 1, by omega, by omega⟩
    have hcastI : ((I.toNat : Nat) : Rat) = (I : Rat) := by
      have h0 : ((I.toNat : Int)) = I := Int.toNat_of_nonneg (by omega)
      exact_mod_cast congrArg (fun z : Int => (z : Rat)) h0
    constructor
    · intro hnone s hs
      by_contra hlt
      push_neg at hlt
      have hne : lastExceed (I_to_P ((I.toNat : Nat) : Rat) voltage phases)
          curve ≠ none := by
        rw [hcastI]
        intro h
        exact absurd ((lastExceed_none_iff _ curve).mp h s hs)
          (not_le.mpr hlt)
      obtain ⟨u, hu⟩ := Option.ne_none_iff_exists'.mp hne
      have hmem : (I, u) ∈ endchargeMap I_max voltage phases curve :=
        (mem_endchargeMap I_max voltage phases curve I u).mpr
          ⟨I.toNat, hnmem, Int.toNat_of_nonneg (by omega),
           by rw [endchargeCutoff_eq]; exact hu⟩
      obtain ⟨w, hw⟩ := alookup_some_of_mem I _ u hmem
      rw [hnone] at hw
      exact Option.noConfusion hw
    · intro hall
      cases hlook : alookup I (endchargeMap I_max voltage phases curve) with
      | none => rfl
      | some u =>
        obtain ⟨n, -, hn1, hc⟩ :=
          (mem_endchargeMap I_max voltage phases curve I u).mp
            (alookup_mem I _ u hlook)
        rw [endchargeCutoff_eq] at hc
        obtain ⟨s, hs, -, hPs⟩ := lastExceed_mem _ curve u hc
        have hcn : ((n : Nat) : Rat) = (I : Rat) := by
          exact_mod_cast congrArg (fun z : Int => (z : Rat)) hn1
        rw [I_to_P, hcn, ← I_to_P] at hPs
        exact absurd (hall s hs) (not_le.mpr hPs)

/-- Witness for `endcharge_antimono` on the two-sample example curve with
`I_max = 3`: level 1 cuts off at time 200, level 2 already at time 100. -/
theorem endcharge_antimono_witness :
    alookup 1 (endchargeMap 3 230 3 exCurve) = some 200 ∧
    alookup 2 (endchargeMap 3 230 3 exCurve) = some 100 ∧
    (100 : Rat) ≤ 200 := by
  have hrange : List.range' 1 ((⌈(3 : Rat)⌉ - 1).toNat) = [1, 2] := by
    have h3 : ⌈(3 : Rat)⌉ = 3 := by norm_num
    rw [h3]
    decide
  have hmap : endchargeMap 3 230 3 exCurve = [(1, 200), (2, 100)] := by
    unfold endchargeMap
    rw [hrange]
    simp only [List.filterMap_cons, List.filterMap_nil]
    norm_num [endchargeCutoff, I_to_P, exCurve, List.filter]
  have h1 : alookup 1 (endchargeMap 3 230 3 exCurve) = some 200 := by
    rw [hmap]
    norm_num [alookup]
  have h2 : alookup 2 (endchargeMap 3 230 3 exCurve) = some 100 := by
    rw [hmap]
    norm_num [alookup]
  exact ⟨h1, h2,
    (endcharge_antimono exCurve 3 230 3 (by norm_num) (by norm_num)
      (by norm_num [exCurve, List.pairwise_cons])).1 1 2 200 100 h1 h2
      (by norm_num)⟩

end PVOptimize
